import Mathlib

/-!
Verification development for the CustomersMGMT order-management workflow
(src/app/views.py, src/app/forms.py). The request handlers are embedded as
pure functions over an explicit store; Django behaviours the handlers rely
on (queryset `.get`, model-form validation, inline-formset save, the
`login_required` gate) are made explicit. The Order model and the
OrderFilter live in files of the repository that are not available
(app/models.py, app/filters.py); those two pieces are modelled from the
spec and marked as such in their doc comments.
-/

namespace CustomersMGMT

/-- An Order row: references one Customer and one Product and carries a
status string. Field list modelled from the spec: the Order entity has a
customer reference, a product reference and a status attribute. -/
structure Order where
  id : Nat
  customer : Nat
  product : Nat
  status : String
deriving Repr, DecidableEq

/-- The persistence store: customer ids, product ids, and the Order rows
in their stored order. -/
structure Store where
  customers : List Nat
  products : List Nat
  orders : List Order
deriving Repr, DecidableEq

/-- Store well-formedness: Order ids are pairwise distinct. -/
def Store.wf (s : Store) : Prop :=
  s.orders.Pairwise (fun a b => a.id ≠ b.id)

instance (s : Store) : Decidable s.wf := by
  unfold Store.wf; infer_instance

/-- Modelled from the spec: the closed status enumeration of the Order
model (models.py is not available). -/
def statusChoices : List String :=
  ["Pending", "Out for delivery", "Delivered", "Done"]

/-- Errors raised by the ORM layer and left unhandled by the views:
`Order.objects.get` / `Customer.objects.get` raise DoesNotExist when no
row matches and MultipleObjectsReturned when several do. -/
inductive DjangoError where
  | doesNotExist
  | multipleReturned
deriving Repr, DecidableEq

/-- `Order.objects.get(id=pk)`: exactly one matching row or an exception. -/
def getOrder (s : Store) (pk : Nat) : Except DjangoError Order :=
  match s.orders.filter (fun o => o.id = pk) with
  | [o] => .ok o
  | [] => .error .doesNotExist
  | _ => .error .multipleReturned

/-- `Customer.objects.get(id=pk)` over the stored customer ids. -/
def getCustomer (s : Store) (pk : Nat) : Except DjangoError Nat :=
  match s.customers.filter (fun c => c = pk) with
  | [c] => .ok c
  | [] => .error .doesNotExist
  | _ => .error .multipleReturned

/-- HTTP method of a request (the handlers branch only on GET vs POST). -/
inductive Method where
  | GET
  | POST
deriving Repr, DecidableEq

/-- Redirect targets used by the workflow handlers. -/
inductive Target where
  | login
  | dashboard
  | customerDetail (pk : Nat)
deriving Repr, DecidableEq

/-- A handler outcome: a redirect, or a rendered template whose context
carries the bound forms' field-level errors (one error list per form row;
a single-form view uses a one-element list, an unbound form none). -/
inductive Response where
  | redirect (t : Target)
  | render (template : String) (formErrors : List (List (String × String)))
deriving Repr, DecidableEq

/-! ## Order Form (src/app/forms.py, OrderForm)

`class OrderForm(ModelForm): Meta: model = Order; fields = '__all__'` —
the form binds every editable field of the Order model. -/

/-- The field names of the Order model, modelled from the spec (models.py
is not available): customer reference, product reference, status. -/
def orderModelFields : List String :=
  ["customer", "product", "status"]

/-- OrderForm declares `fields = '__all__'`: the bound field list is the
whole editable field list of the Order model. -/
def orderFormBoundFields : List String :=
  orderModelFields

/-- A submitted single-record body for OrderForm: one optional value per
bound field (absent keys are missing fields). -/
structure OrderSubmission where
  customer : Option Nat
  product : Option Nat
  status : Option String
deriving Repr, DecidableEq

/-- Field-level validation of one OrderForm submission against the store:
the customer reference must resolve, the product reference must resolve,
and the status must lie in the closed enumeration; a missing required
field is an error. Returns the error list keyed by field name. -/
def orderFormErrors (s : Store) (b : OrderSubmission) : List (String × String) :=
  (match b.customer with
   | none => [("customer", "This field is required.")]
   | some c => if s.customers.contains c then [] else
       [("customer", "Select a valid choice.")]) ++
  (match b.product with
   | none => [("product", "This field is required.")]
   | some p => if s.products.contains p then [] else
       [("product", "Select a valid choice.")]) ++
  (match b.status with
   | none => [("status", "This field is required.")]
   | some v => if statusChoices.contains v then [] else
       [("status", "Select a valid choice.")])

/-- `form.is_valid()` for OrderForm. -/
def orderFormIsValid (s : Store) (b : OrderSubmission) : Bool :=
  orderFormErrors s b = []

/-- `form.save()` on a form bound to an existing instance: mutate the row
with the instance's id, writing every bound field from the submission. -/
def orderFormSaveInstance (s : Store) (pk : Nat) (b : OrderSubmission) : Store :=
  { s with orders := s.orders.map (fun o =>
      if o.id = pk then
        { o with customer := b.customer.getD o.customer,
                 product := b.product.getD o.product,
                 status := b.status.getD o.status }
      else o) }

/-! ## Order Formset (views.py create_order)

`inlineformset_factory(Customer, Order, fields=('product', 'status'),
extra=1, can_delete=False)`: each row binds product and status only, the
customer foreign key comes from the bound instance, deletion is disabled. -/

/-- One candidate row of the formset body: the declared product and
status fields, plus the hidden primary-key field `id` the formset adds to
every form (it names the existing Order a row edits; the rendered
creation page leaves it empty). -/
structure OrderRow where
  id : Option Nat
  product : Option Nat
  status : Option String
deriving Repr, DecidableEq

/-- A formset submission: the management metadata (declared total row
count, declared initial row count) plus the candidate rows. The POST
binding `OrderFormSet(request.POST, instance=customer)` on views.py line
107 does not pass the empty queryset, so the declared initial rows are
matched against the customer's existing Orders. -/
structure FormsetSubmission where
  totalForms : Nat
  initialForms : Nat
  rows : List OrderRow
deriving Repr, DecidableEq

/-- A row left entirely blank (an extra form the user did not touch,
skipped silently, never an error). -/
def rowBlank (r : OrderRow) : Bool :=
  r.id = none && r.product = none && r.status = none

/-- Field-level validation of one row's submitted values: the product
reference must resolve, the status must lie in the enumeration, and a
supplied hidden id must name an existing Order (the hidden pk field is a
choice over Order rows). -/
def rowFieldErrors (s : Store) (r : OrderRow) : List (String × String) :=
  (match r.product with
   | none => [("product", "This field is required.")]
   | some p => if s.products.contains p then [] else
       [("product", "Select a valid choice.")]) ++
  (match r.status with
   | none => []
   | some v => if statusChoices.contains v then [] else
       [("status", "Select a valid choice.")]) ++
  (match r.id with
   | none => []
   | some v => if s.orders.any (fun o => o.id = v) then [] else
       [("id", "Select a valid choice.")])

/-- Validation of an extra form (index at or beyond the declared initial
count): a blank row is permitted and produces no errors, any other row is
field-validated. -/
def rowErrors (s : Store) (r : OrderRow) : List (String × String) :=
  if rowBlank r then [] else rowFieldErrors s r

/-- Validation of an initial form (index below the declared initial
count): it is not permitted to be empty, and its hidden id field is
required on top of the field checks. -/
def initialRowErrors (s : Store) (r : OrderRow) : List (String × String) :=
  rowFieldErrors s r ++
    (match r.id with
     | none => [("id", "This field is required.")]
     | some _ => [])

/-- The per-row error lists of the bound formset, walking the rows with
their indices: rows below the declared initial count validate as initial
forms, the rest as extra forms. -/
def formsetErrorsAux (s : Store) (ini : Nat) (i : Nat) :
    List OrderRow → List (List (String × String))
  | [] => []
  | r :: rs =>
    (if i < ini then initialRowErrors s r else rowErrors s r) ::
      formsetErrorsAux s ini (i + 1) rs

/-- The per-row error lists the re-rendered formset carries. -/
def formsetErrors (s : Store) (sub : FormsetSubmission) : List (List (String × String)) :=
  formsetErrorsAux s sub.initialForms 0 sub.rows

/-- `formset.is_valid()`: the management metadata's declared total must
match the submitted rows (the spec's management-record contract: a
mismatch invalidates the whole submission) and every row must validate in
its regime. -/
def formsetIsValid (s : Store) (sub : FormsetSubmission) : Bool :=
  sub.totalForms = sub.rows.length &&
    (formsetErrors s sub).all (fun e => e = [])

/-- The next fresh Order id the store hands out on insert. -/
def nextOrderId (s : Store) : Nat :=
  s.orders.foldr (fun o m => max (o.id + 1) m) 0

/-- Build the new Order rows of a formset save: one new row per non-blank
extra candidate, in submission order, each referencing the owning
customer (the hidden id field never reaches a fresh instance: the pk is
auto-assigned). -/
def buildRows (n : Nat) (cust : Nat) : List OrderRow → List Order
  | [] => []
  | r :: rs =>
    if rowBlank r then buildRows n cust rs
    else { id := n, customer := cust,
           product := r.product.getD 0,
           status := r.status.getD "" } :: buildRows (n + 1) cust rs

/-- One step of `save_existing_objects`: an initial form whose hidden id
resolves to one of the bound customer's Orders rewrites that row's
product and status; an id of another customer's Order finds no instance
in the formset's queryset and is ignored. -/
def applyInitialRow (cust : Nat) (r : OrderRow) (orders : List Order) : List Order :=
  match r.id with
  | none => orders
  | some pkv => orders.map (fun o =>
      if o.id = pkv ∧ o.customer = cust then
        { o with product := r.product.getD o.product,
                 status := r.status.getD o.status }
      else o)

/-- `save_existing_objects`: apply every declared initial row's update to
the order table. -/
def saveExistingObjects (cust : Nat) (rows : List OrderRow) (orders : List Order) : List Order :=
  rows.foldl (fun os r => applyInitialRow cust r os) orders

/-- `formset.save()` on a valid formset bound to customer `cust`: the
declared initial rows update their existing Orders in place
(save_existing_objects), then one new Order per non-blank extra row is
appended (save_new_objects); `can_delete=False` means no row is ever
deleted. -/
def formsetSave (s : Store) (cust : Nat) (sub : FormsetSubmission) : Store :=
  { s with orders :=
      saveExistingObjects cust (sub.rows.take sub.initialForms) s.orders ++
        buildRows (nextOrderId s) cust (sub.rows.drop sub.initialForms) }

/-! ## Order Filter (views.py customer view)

app/filters.py is not available; the filter's contract is modelled from
the spec. -/

/-- `customer.order_set.all()`: the Orders referencing this customer, in
the store's relative order. -/
def customerOrders (s : Store) (pk : Nat) : List Order :=
  s.orders.filter (fun o => o.customer = pk)

/-- Whether one query criterion keeps an order. Modelled from the spec:
a supplied `status` value restricts to orders with that status, an empty
value is ignored, unknown keys are ignored rather than erroring. -/
def criterionKeeps (kv : String × String) (o : Order) : Bool :=
  if kv.1 = "status" then
    if kv.2 = "" then true else o.status = kv.2
  else true

/-- Modelled from the spec: `OrderFilter(request.GET, queryset=orders).qs`
(app/filters.py is not available) — the subset of the base collection
matching every supplied criterion, preserving the base ordering, with
unsupplied or empty criteria as no-ops and no side effects. -/
def orderFilterQs (criteria : List (String × String)) (base : List Order) : List Order :=
  base.filter (fun o => criteria.all (fun kv => criterionKeeps kv o))

/-- The order list the customer view renders: the customer's orders run
through the filter with the request's query parameters (views.py,
`customer`). -/
def customerDisplayedOrders (s : Store) (pk : Nat)
    (queryParams : List (String × String)) : List Order :=
  orderFilterQs queryParams (customerOrders s pk)

/-! ## Workflow handlers (views.py)

Each handler takes the authentication flag (the `login_required` gate),
the method, the request body, the store and the path parameter, and
returns either an unhandled ORM exception or a response paired with the
resulting store. -/

/-- views.py `create_order`, gated by `login_required(login_url='login')`. -/
def create_order (auth : Bool) (method : Method) (body : FormsetSubmission)
    (s : Store) (pk : Nat) : Except DjangoError (Response × Store) :=
  if !auth then .ok (.redirect .login, s)
  else do
    let cust ← getCustomer s pk
    match method with
    | .POST =>
      if formsetIsValid s body then
        .ok (.redirect (.customerDetail pk), formsetSave s cust body)
      else
        .ok (.render "app/order_form.html" (formsetErrors s body), s)
    | .GET =>
      .ok (.render "app/order_form.html" [], s)

/-- views.py `update_order`, gated by `login_required(login_url='login')`.
`Order.objects.get(id=pk)` runs before the method branch, so a missing
order id escapes as an unhandled DoesNotExist on GET and POST alike. -/
def update_order (auth : Bool) (method : Method) (body : OrderSubmission)
    (s : Store) (pk : Nat) : Except DjangoError (Response × Store) :=
  if !auth then .ok (.redirect .login, s)
  else do
    let order ← getOrder s pk
    match method with
    | .POST =>
      if orderFormIsValid s body then
        .ok (.redirect .dashboard, orderFormSaveInstance s order.id body)
      else
        .ok (.render "app/update_order_form.html" [orderFormErrors s body], s)
    | .GET =>
      .ok (.render "app/update_order_form.html" [], s)

/-- views.py `delete_order`, gated by `login_required(login_url='login')`:
GET renders the confirmation page, POST deletes the row unconditionally
and redirects to the dashboard. -/
def delete_order (auth : Bool) (method : Method) (s : Store) (pk : Nat) :
    Except DjangoError (Response × Store) :=
  if !auth then .ok (.redirect .login, s)
  else do
    let order ← getOrder s pk
    match method with
    | .POST =>
      .ok (.redirect .dashboard,
           { s with orders := s.orders.filter (fun o => o.id ≠ order.id) })
    | .GET =>
      .ok (.render "app/delete.html" [], s)

/-! ## Basic facts about the ORM lookups -/

/-- `Order.objects.get(id=pk)` succeeds exactly when the rows matching the
id are a singleton. -/
theorem getOrder_eq_ok_iff (s : Store) (pk : Nat) (O : Order) :
    getOrder s pk = .ok O ↔ s.orders.filter (fun o => o.id = pk) = [O] := by
  unfold getOrder
  rcases h : s.orders.filter (fun o => o.id = pk) with _ | ⟨a, _ | ⟨b, l⟩⟩ <;>
    rw [h] <;> simp

/-- A successful order lookup returns a member of the store whose id is
the requested one. -/
theorem getOrder_ok_facts (s : Store) (pk : Nat) (O : Order)
    (h : getOrder s pk = .ok O) :
    O ∈ s.orders ∧ O.id = pk := by
  have hf := (getOrder_eq_ok_iff s pk O).mp h
  have hmem : O ∈ s.orders.filter (fun o => o.id = pk) := by
    rw [hf]; exact List.mem_singleton_self O
  rcases List.mem_filter.mp hmem with ⟨h1, h2⟩
  exact ⟨h1, by simpa using h2⟩

/-- `Customer.objects.get(id=pk)` succeeds exactly when the matching ids
are a singleton; the returned id is the requested one. -/
theorem getCustomer_eq_ok_iff (s : Store) (pk c : Nat) :
    getCustomer s pk = .ok c ↔ s.customers.filter (fun x => x = pk) = [c] := by
  unfold getCustomer
  rcases h : s.customers.filter (fun x => x = pk) with _ | ⟨a, _ | ⟨b, l⟩⟩ <;>
    simp [h]

/-- A successful customer lookup returns the requested id. -/
theorem getCustomer_ok_id (s : Store) (pk c : Nat)
    (h : getCustomer s pk = .ok c) : c = pk := by
  have hf := (getCustomer_eq_ok_iff s pk c).mp h
  have hmem : c ∈ s.customers.filter (fun x => x = pk) := by
    rw [hf]; exact List.mem_singleton_self c
  simpa using (List.mem_filter.mp hmem).2

/-! ## Facts about the formset save -/

/-- Every row built by a formset save references the owning customer. -/
theorem buildRows_customer (n cust : Nat) (rs : List OrderRow) :
    ∀ o ∈ buildRows n cust rs, o.customer = cust := by
  induction rs generalizing n with
  | nil => intro o ho; simp [buildRows] at ho
  | cons r rs ih =>
    intro o ho
    by_cases hb : rowBlank r = true
    · exact ih n o (by simpa [buildRows, hb] using ho)
    · rcases (by simpa [buildRows, hb] using ho : _ ∨ _) with h | h
      · rw [h]
      · exact ih (n + 1) o h

/-- When no submitted row is blank, the formset save builds one new Order
per row. -/
theorem buildRows_length (n cust : Nat) (rs : List OrderRow)
    (h : ∀ r ∈ rs, rowBlank r = false) :
    (buildRows n cust rs).length = rs.length := by
  induction rs generalizing n with
  | nil => simp [buildRows]
  | cons r rs ih =>
    have hr : rowBlank r = false := h r (List.mem_cons_self r rs)
    simp [buildRows, hr, ih (n + 1) (fun x hx => h x (List.mem_cons_of_mem r hx))]

/-- The error list the bound formset shows at position j: initial-form
validation below the declared initial count, extra-form validation from
there on. -/
theorem formsetErrorsAux_getElem (s : Store) (ini : Nat) :
    ∀ (rows : List OrderRow) (i j : Nat) (r : OrderRow),
      rows[j]? = some r →
      (formsetErrorsAux s ini i rows)[j]? =
        some (if i + j < ini then initialRowErrors s r else rowErrors s r) := by
  intro rows
  induction rows with
  | nil => intro i j r h; simp at h
  | cons a rs ih =>
    intro i j r h
    cases j with
    | zero =>
      rw [List.getElem?_cons_zero] at h
      cases h
      simp [formsetErrorsAux]
    | succ j =>
      have h2 : rs[j]? = some r := by
        rw [List.getElem?_cons_succ] at h; exact h
      have hrec := ih (i + 1) j r h2
      have hcons : formsetErrorsAux s ini i (a :: rs) =
          (if i < ini then initialRowErrors s a else rowErrors s a) ::
            formsetErrorsAux s ini (i + 1) rs := rfl
      rw [hcons, List.getElem?_cons_succ, hrec]
      have harith : i + 1 + j = i + (j + 1) := by omega
      rw [harith]

/-- With zero declared initial forms every row validates as an extra
form. -/
theorem formsetErrorsAux_zero (s : Store) :
    ∀ (rows : List OrderRow) (i : Nat),
      formsetErrorsAux s 0 i rows = rows.map (fun r => rowErrors s r) := by
  intro rows
  induction rows with
  | nil => intro i; rfl
  | cons a rs ih => intro i; simp [formsetErrorsAux, ih]

/-! ## Facts about save_existing_objects -/

/-- Applying one initial row never changes the number of stored rows. -/
theorem applyInitialRow_length (cust : Nat) (r : OrderRow)
    (orders : List Order) :
    (applyInitialRow cust r orders).length = orders.length := by
  unfold applyInitialRow
  cases r.id <;> simp

/-- save_existing_objects never changes the number of stored rows. -/
theorem saveExistingObjects_length (cust : Nat) :
    ∀ (rows : List OrderRow) (orders : List Order),
      (saveExistingObjects cust rows orders).length = orders.length := by
  intro rows
  induction rows with
  | nil => intro orders; rfl
  | cons r rs ih =>
    intro orders
    show (saveExistingObjects cust rs (applyInitialRow cust r orders)).length = _
    rw [ih, applyInitialRow_length]

/-- Applying one initial row preserves each position's id and owning
customer: only product and status can be rewritten. -/
theorem applyInitialRow_idcust (cust : Nat) (r : OrderRow)
    (orders : List Order) :
    (applyInitialRow cust r orders).map (fun o => (o.id, o.customer)) =
      orders.map (fun o => (o.id, o.customer)) := by
  unfold applyInitialRow
  cases r.id with
  | none => rfl
  | some pkv =>
    rw [List.map_map]
    apply List.map_congr_left
    intro o _
    by_cases h : o.id = pkv ∧ o.customer = cust <;> simp [Function.comp, h]

/-- save_existing_objects preserves each position's id and owning
customer. -/
theorem saveExistingObjects_idcust (cust : Nat) :
    ∀ (rows : List OrderRow) (orders : List Order),
      (saveExistingObjects cust rows orders).map (fun o => (o.id, o.customer)) =
        orders.map (fun o => (o.id, o.customer)) := by
  intro rows
  induction rows with
  | nil => intro orders; rfl
  | cons r rs ih =>
    intro orders
    show (saveExistingObjects cust rs (applyInitialRow cust r orders)).map _ = _
    rw [ih, applyInitialRow_idcust]

/-- An order owned by a different customer is untouched by one initial
row. -/
theorem applyInitialRow_mem_other (cust : Nat) (r : OrderRow)
    (orders : List Order) (o : Order) (ho : o ∈ orders)
    (hne : o.customer ≠ cust) : o ∈ applyInitialRow cust r orders := by
  unfold applyInitialRow
  cases r.id with
  | none => exact ho
  | some pkv =>
    refine List.mem_map.mpr ⟨o, ho, ?_⟩
    rw [if_neg (fun hand => hne hand.2)]

/-- An order owned by a different customer survives save_existing_objects
unchanged. -/
theorem saveExistingObjects_mem_other (cust : Nat) :
    ∀ (rows : List OrderRow) (orders : List Order) (o : Order),
      o ∈ orders → o.customer ≠ cust →
      o ∈ saveExistingObjects cust rows orders := by
  intro rows
  induction rows with
  | nil => intro orders o ho _; exact ho
  | cons r rs ih =>
    intro orders o ho hne
    exact ih (applyInitialRow cust r orders) o
      (applyInitialRow_mem_other cust r orders o ho hne) hne

/-! ## Concrete fixture used by the witnesses and counterexamples -/

/-- A small concrete store: two customers, two products, three orders. -/
def sampleStore : Store :=
  { customers := [1, 2],
    products := [10, 11],
    orders := [⟨100, 1, 10, "Pending"⟩, ⟨101, 2, 11, "Done"⟩,
               ⟨102, 1, 11, "Done"⟩] }

/-! ## Claims -/

/-- C1: the claim says a missing order id at the update-order handler
produces a user-visible 404-equivalent rather than an unhandled crash.
The code calls `Order.objects.get(id=pk)` and never catches DoesNotExist,
so on a store holding no Order of id 999 the request escapes as an
unhandled exception (a crashed request, HTTP 500), on GET and POST alike,
for every submitted body — not a not-found response. -/
theorem C1_update_order_missing_id_crashes :
    (∀ (method : Method) (body : OrderSubmission),
      update_order true method body sampleStore 999 =
        .error .doesNotExist) ∧
    getOrder sampleStore 999 = .error .doesNotExist := by
  constructor
  · intro method body; rfl
  · rfl

/-- C4: any gated order-workflow handler (create, update, delete) invoked
without authentication returns a redirect to the login entry point and
leaves the store untouched, for every method, body, store and path
parameter. -/
theorem C4_unauthenticated_redirects_to_login :
    ∀ (method : Method) (fbody : FormsetSubmission) (ubody : OrderSubmission)
      (s : Store) (pk : Nat),
      create_order false method fbody s pk = .ok (.redirect .login, s) ∧
      update_order false method ubody s pk = .ok (.redirect .login, s) ∧
      delete_order false method s pk = .ok (.redirect .login, s) := by
  intro method fbody ubody s pk
  exact ⟨rfl, rfl, rfl⟩

/-- C5: filtering a customer's orders with status="Done" displays exactly
the sub-collection of that customer's orders whose status is Done,
preserving the base collection's relative order (it is a sublist), while
an empty status value or no criteria at all display the unfiltered
collection; the filter is a pure function of the store. -/
theorem C5_order_filter_status (s : Store) (pk : Nat) :
    customerDisplayedOrders s pk [("status", "Done")] =
      (customerOrders s pk).filter (fun o => o.status = "Done") ∧
    (customerDisplayedOrders s pk [("status", "Done")]).Sublist
      (customerOrders s pk) ∧
    customerDisplayedOrders s pk [("status", "")] = customerOrders s pk ∧
    customerDisplayedOrders s pk [] = customerOrders s pk := by
  refine ⟨?_, ?_, ?_, ?_⟩
  · simp [customerDisplayedOrders, orderFilterQs, criterionKeeps]
  · exact List.filter_sublist _
  · simp [customerDisplayedOrders, orderFilterQs, criterionKeeps]
  · simp [customerDisplayedOrders, orderFilterQs]

/-- C9 counterexample: the claim says the Order Form binds exactly the
product and status fields and nothing else. In src/app/forms.py the form
declares `fields = '__all__'`, so the customer reference is bound too:
the bound field list is not [product, status], and a valid update-order
submission carrying customer=2 rewrites order 100's customer reference
from 1 to 2. -/
theorem C9_orderform_not_product_status_only :
    orderFormBoundFields ≠ ["product", "status"] ∧
    (orderFormSaveInstance sampleStore 100
        ⟨some 2, some 10, some "Done"⟩).orders.map (fun o => o.customer) ≠
      sampleStore.orders.map (fun o => o.customer) := by
  constructor
  · decide
  · decide

/-- C9 amended: the Order Form declares `fields = '__all__'`, so it binds
every editable field of the Order model — the customer reference, the
product reference and the status — and a successful bound save writes all
three fields of the target row from the submission. -/
theorem C9_orderform_binds_all_fields (s : Store) (pk c p : Nat) (v : String) :
    orderFormBoundFields = ["customer", "product", "status"] ∧
    (orderFormSaveInstance s pk ⟨some c, some p, some v⟩).orders =
      s.orders.map (fun o =>
        if o.id = pk then { o with customer := c, product := p, status := v }
        else o) := by
  exact ⟨rfl, by simp [orderFormSaveInstance]⟩

/-! ## Reduction lemmas for the handlers -/

/-- An authenticated POST to create_order reduces to the valid/invalid
branch once the customer lookup succeeds. -/
theorem create_order_post_eq (body : FormsetSubmission) (s : Store)
    (pk cust : Nat) (hc : getCustomer s pk = .ok cust) :
    create_order true .POST body s pk =
      if formsetIsValid s body then
        .ok (.redirect (.customerDetail pk), formsetSave s cust body)
      else
        .ok (.render "app/order_form.html" (formsetErrors s body), s) := by
  unfold create_order
  rw [hc]
  rfl

/-- A failed customer lookup escapes create_order unhandled. -/
theorem create_order_error_eq (method : Method) (body : FormsetSubmission)
    (s : Store) (pk : Nat) (e : DjangoError)
    (hc : getCustomer s pk = .error e) :
    create_order true method body s pk = .error e := by
  unfold create_order
  rw [hc]
  rfl

/-- An authenticated POST to update_order reduces to the valid/invalid
branch once the order lookup succeeds. -/
theorem update_order_post_eq (body : OrderSubmission) (s : Store) (pk : Nat)
    (O : Order) (hO : getOrder s pk = .ok O) :
    update_order true .POST body s pk =
      if orderFormIsValid s body then
        .ok (.redirect .dashboard, orderFormSaveInstance s O.id body)
      else
        .ok (.render "app/update_order_form.html" [orderFormErrors s body], s) := by
  unfold update_order
  rw [hO]
  rfl

/-- C10 counterexample: the claim says every Order already in the store
before a create-order request is still present and unmodified afterwards.
views.py line 107 binds the POST formset without the empty queryset, so a
POST declaring one initial form whose hidden id names one of the target
customer's existing Orders updates that row: on the sample store, order
100 (product 10, status Pending) is rewritten to product 11, status Done
— the pre-existing row is no longer in the store. -/
theorem C10_create_order_can_update_existing :
    create_order true .POST ⟨1, 1, [⟨some 100, some 11, some "Done"⟩]⟩
        sampleStore 1 =
      .ok (.redirect (.customerDetail 1),
           Store.mk [1, 2] [10, 11]
             [⟨100, 1, 11, "Done"⟩, ⟨101, 2, 11, "Done"⟩,
              ⟨102, 1, 11, "Done"⟩]) ∧
    (⟨100, 1, 10, "Pending"⟩ : Order) ∈ sampleStore.orders ∧
    (⟨100, 1, 10, "Pending"⟩ : Order) ∉
      (Store.mk [1, 2] [10, 11]
        [⟨100, 1, 11, "Done"⟩, ⟨101, 2, 11, "Done"⟩,
         ⟨102, 1, 11, "Done"⟩]).orders :=
  ⟨by rfl, by decide, by decide⟩

/-- Claim C10 amended: the create-order handler never deletes an Order
and never touches the customer or product tables. Whenever it returns a
store, the old rows survive at their positions with id and owning
customer intact — only the product and status of the bound customer's own
rows can be rewritten, through declared initial forms — any new rows are
appended after them, Orders of other customers are untouched, and a
submission declaring zero initial forms (as the rendered creation page
does) leaves every pre-existing row unchanged, append-only. -/
theorem C10_create_order_inserts_or_updates_own (auth : Bool)
    (method : Method) (body : FormsetSubmission) (s : Store) (pk : Nat)
    (resp : Response) (s2 : Store)
    (h : create_order auth method body s pk = .ok (resp, s2)) :
    ∃ updated newOrders,
      s2.orders = updated ++ newOrders ∧
      s2.customers = s.customers ∧ s2.products = s.products ∧
      updated.length = s.orders.length ∧
      updated.map (fun o => (o.id, o.customer)) =
        s.orders.map (fun o => (o.id, o.customer)) ∧
      (∀ o ∈ s.orders, o.customer ≠ pk → o ∈ updated) ∧
      (body.initialForms = 0 → updated = s.orders) := by
  cases auth with
  | false =>
    unfold create_order at h
    simp only [Bool.not_false, if_pos, Except.ok.injEq, Prod.mk.injEq] at h
    refine ⟨s.orders, [], ?_, ?_, ?_, rfl, rfl, fun o ho _ => ho,
        fun _ => rfl⟩ <;> simp [← h.2]
  | true =>
    cases hc : getCustomer s pk with
    | error e =>
      rw [create_order_error_eq method body s pk e hc] at h
      exact absurd h (by simp)
    | ok cust =>
      cases method with
      | GET =>
        unfold create_order at h
        rw [hc] at h
        simp only [Bool.not_true, Bool.false_eq_true, if_false] at h
        have h2 : s2 = s := by
          have := congrArg (fun x =>
            match x with
            | Except.ok (_, st) => st
            | Except.error _ => s2) h
          simpa using this.symm
        refine ⟨s.orders, [], ?_, ?_, ?_, rfl, rfl, fun o ho _ => ho,
            fun _ => rfl⟩ <;> simp [h2]
      | POST =>
        rw [create_order_post_eq body s pk cust hc] at h
        by_cases hv : formsetIsValid s body = true
        · rw [if_pos hv] at h
          simp only [Except.ok.injEq, Prod.mk.injEq] at h
          have hpk : cust = pk := getCustomer_ok_id s pk cust hc
          refine ⟨saveExistingObjects cust (body.rows.take body.initialForms)
              s.orders,
            buildRows (nextOrderId s) cust (body.rows.drop body.initialForms),
            ?_, ?_, ?_, ?_, ?_, ?_, ?_⟩
          · rw [← h.2]; rfl
          · rw [← h.2]; rfl
          · rw [← h.2]; rfl
          · exact saveExistingObjects_length cust _ _
          · exact saveExistingObjects_idcust cust _ _
          · intro o ho hne
            exact saveExistingObjects_mem_other cust _ _ o ho
              (by rw [hpk]; exact hne)
          · intro h0
            rw [h0]
            rfl
        · rw [if_neg hv] at h
          simp only [Except.ok.injEq, Prod.mk.injEq] at h
          refine ⟨s.orders, [], ?_, ?_, ?_, rfl, rfl, fun o ho _ => ho,
              fun _ => rfl⟩ <;> simp [← h.2]

/-- Claim C2: when a non-blank row of the submitted formset fails field
validation, an authenticated create-order POST persists nothing — the
store it returns is the input store — and re-renders the form (no
redirect) with the offending row flagged: the error list displayed at
that row's position is non-empty and carries each of the row's field
errors. -/
theorem C2_invalid_row_persists_nothing (s : Store) (pk cust : Nat)
    (body : FormsetSubmission) (i : Nat) (r : OrderRow)
    (hc : getCustomer s pk = .ok cust)
    (hi : body.rows[i]? = some r)
    (hblank : rowBlank r = false)
    (hbad : rowErrors s r ≠ []) :
    create_order true .POST body s pk =
      .ok (.render "app/order_form.html" (formsetErrors s body), s) ∧
    ∃ errs, (formsetErrors s body)[i]? = some errs ∧ errs ≠ [] ∧
      ∀ e ∈ rowErrors s r, e ∈ errs := by
  have hget := formsetErrorsAux_getElem s body.initialForms body.rows 0 i r hi
  have hsub : ∀ e ∈ rowErrors s r,
      e ∈ (if 0 + i < body.initialForms then initialRowErrors s r
           else rowErrors s r) := by
    intro e he
    by_cases hlt : 0 + i < body.initialForms
    · rw [if_pos hlt]
      unfold rowErrors at he
      rw [if_neg (by simp [hblank])] at he
      exact List.mem_append_left _ he
    · rw [if_neg hlt]; exact he
  have hne : (if 0 + i < body.initialForms then initialRowErrors s r
      else rowErrors s r) ≠ [] := by
    intro h0
    rcases List.exists_mem_of_ne_nil _ hbad with ⟨e, he⟩
    have := hsub e he
    rw [h0] at this
    simp at this
  have hmem : (if 0 + i < body.initialForms then initialRowErrors s r
      else rowErrors s r) ∈ formsetErrors s body :=
    List.getElem?_mem hget
  have hall : (formsetErrors s body).all (fun e => e = []) = false := by
    rw [List.all_eq_false]
    exact ⟨_, hmem, by simpa using hne⟩
  have hv : formsetIsValid s body = false := by
    unfold formsetIsValid
    rw [hall, Bool.and_false]
  refine ⟨?_, _, hget, hne, hsub⟩
  rw [create_order_post_eq body s pk cust hc, hv]
  rfl

/-- Claim C3: an authenticated POST of N well-formed (non-blank,
field-valid) rows with consistent management metadata for an existing
customer persists exactly N new Orders, appended to the store, each
referencing that customer, and redirects to the customer's detail view. -/
theorem C3_wellformed_rows_create_n_orders (s : Store) (pk cust : Nat)
    (body : FormsetSubmission)
    (hc : getCustomer s pk = .ok cust)
    (ht : body.totalForms = body.rows.length)
    (h0 : body.initialForms = 0)
    (hrows : ∀ r ∈ body.rows, rowBlank r = false ∧ rowErrors s r = []) :
    ∃ newOrders,
      create_order true .POST body s pk =
        .ok (.redirect (.customerDetail pk),
             { s with orders := s.orders ++ newOrders }) ∧
      newOrders.length = body.rows.length ∧
      ∀ o ∈ newOrders, o.customer = pk := by
  have herr : formsetErrors s body = body.rows.map (fun r => rowErrors s r) := by
    unfold formsetErrors
    rw [h0]
    exact formsetErrorsAux_zero s body.rows 0
  have hv : formsetIsValid s body = true := by
    unfold formsetIsValid
    rw [herr, Bool.and_eq_true]
    refine ⟨by simp [ht], ?_⟩
    rw [List.all_eq_true]
    intro e he
    rcases List.mem_map.mp he with ⟨r, hrr, rfl⟩
    simpa using (hrows r hrr).2
  have hsave : formsetSave s cust body =
      { s with orders := s.orders ++ buildRows (nextOrderId s) cust body.rows } := by
    unfold formsetSave
    rw [h0]
    rfl
  have hpk : cust = pk := getCustomer_ok_id s pk cust hc
  refine ⟨buildRows (nextOrderId s) cust body.rows, ?_, ?_, ?_⟩
  · rw [create_order_post_eq body s pk cust hc, if_pos hv, hsave]
  · exact buildRows_length _ _ _ (fun r hrr => (hrows r hrr).1)
  · intro o ho
    rw [buildRows_customer _ _ _ o ho, hpk]

/-- Claim C6: a successful (valid) authenticated POST to update_order for
an existing Order mutates only that Order's row: the handler redirects to
the dashboard, the customer and product tables and the order count are
unchanged, and every order at a position whose id differs from the target
id is exactly the order that was there before. -/
theorem C6_update_mutates_only_target (s : Store) (pk : Nat) (O : Order)
    (body : OrderSubmission)
    (hO : getOrder s pk = .ok O)
    (hv : orderFormIsValid s body = true) :
    ∃ s2, update_order true .POST body s pk = .ok (.redirect .dashboard, s2) ∧
      s2.customers = s.customers ∧ s2.products = s.products ∧
      s2.orders.length = s.orders.length ∧
      ∀ i : Nat, ∀ o : Order, s.orders[i]? = some o → o.id ≠ pk →
        s2.orders[i]? = some o := by
  have hid : O.id = pk := (getOrder_ok_facts s pk O hO).2
  refine ⟨orderFormSaveInstance s O.id body, ?_, rfl, rfl, ?_, ?_⟩
  · rw [update_order_post_eq body s pk O hO, if_pos hv]
  · simp [orderFormSaveInstance]
  · intro i o hget hne
    have hmap : (orderFormSaveInstance s O.id body).orders[i]? =
        (s.orders[i]?).map (fun o =>
          if o.id = O.id then
            { o with customer := body.customer.getD o.customer,
                     product := body.product.getD o.product,
                     status := body.status.getD o.status }
          else o) := by
      simp [orderFormSaveInstance, List.getElem?_map]
    rw [hmap, hget]
    have : o.id = O.id ↔ False := by rw [hid]; exact iff_false_intro hne
    simp [this]

/-- Claim C7: for an existing Order, the delete-order handler on GET
mutates nothing and renders the confirmation template; on POST it removes
exactly that Order (members differing from it survive, no member is
added) and redirects to the dashboard, and a subsequent lookup of the id
fails with DoesNotExist. -/
theorem C7_delete_order_get_confirms_post_deletes (s : Store) (pk : Nat)
    (O : Order) (hO : getOrder s pk = .ok O) :
    delete_order true .GET s pk = .ok (.render "app/delete.html" [], s) ∧
    ∃ s2, delete_order true .POST s pk = .ok (.redirect .dashboard, s2) ∧
      s2.customers = s.customers ∧ s2.products = s.products ∧
      O ∉ s2.orders ∧
      (∀ o ∈ s.orders, o ≠ O → o ∈ s2.orders) ∧
      (∀ o ∈ s2.orders, o ∈ s.orders) ∧
      getOrder s2 pk = .error .doesNotExist := by
  have hid : O.id = pk := (getOrder_ok_facts s pk O hO).2
  have hsingle : s.orders.filter (fun o => o.id = pk) = [O] :=
    (getOrder_eq_ok_iff s pk O).mp hO
  subst hid
  constructor
  · unfold delete_order; rw [hO]; rfl
  refine ⟨{ s with orders := s.orders.filter (fun o => o.id ≠ O.id) },
      ?_, rfl, rfl, ?_, ?_, ?_, ?_⟩
  · unfold delete_order; rw [hO]; rfl
  · intro hmem
    have := (List.mem_filter.mp hmem).2
    simp at this
  · intro o hmem hne
    have hdiff : o.id ≠ O.id := by
      intro heq
      have : o ∈ s.orders.filter (fun x => x.id = O.id) :=
        List.mem_filter.mpr ⟨hmem, by simpa using heq⟩
      rw [hsingle] at this
      exact hne (List.mem_singleton.mp this)
    exact List.mem_filter.mpr ⟨hmem, by simpa using hdiff⟩
  · intro o hmem
    exact List.mem_filter.mp hmem |>.1
  · have hnil : (s.orders.filter (fun o => o.id ≠ O.id)).filter
        (fun o => o.id = O.id) = [] := by
      rw [List.filter_eq_nil_iff]
      intro a ha
      have := (List.mem_filter.mp ha).2
      simp at this
      simp [this]
    unfold getOrder
    simp only [hnil]

/-- Claim C8: an authenticated POST to update_order for an existing Order
either persists the mutation and redirects to the dashboard (valid body)
or persists nothing — the returned store is the input store — and
re-renders the form with a non-empty field-level error list and no
redirect (invalid body). -/
theorem C8_update_post_valid_or_invalid (s : Store) (pk : Nat) (O : Order)
    (body : OrderSubmission) (hO : getOrder s pk = .ok O) :
    (orderFormIsValid s body = true →
      update_order true .POST body s pk =
        .ok (.redirect .dashboard, orderFormSaveInstance s pk body)) ∧
    (orderFormIsValid s body = false →
      update_order true .POST body s pk =
        .ok (.render "app/update_order_form.html" [orderFormErrors s body],
             s) ∧
      orderFormErrors s body ≠ []) := by
  have hid : O.id = pk := (getOrder_ok_facts s pk O hO).2
  constructor
  · intro hv
    rw [update_order_post_eq body s pk O hO, if_pos hv, hid]
  · intro hv
    refine ⟨?_, ?_⟩
    · rw [update_order_post_eq body s pk O hO, if_neg (by simp [hv])]
    · intro hnil
      unfold orderFormIsValid at hv
      rw [hnil] at hv
      simp at hv

/-- Witness for C2: one non-blank row with status "Banana" (outside the
enumeration) makes the POST re-render with the row flagged and the store
unchanged. -/
theorem C2_invalid_row_persists_nothing_witness :
    create_order true .POST ⟨1, 0, [⟨none, some 10, some "Banana"⟩]⟩
        sampleStore 1 =
      .ok (.render "app/order_form.html"
            (formsetErrors sampleStore ⟨1, 0, [⟨none, some 10, some "Banana"⟩]⟩),
           sampleStore) ∧
    ∃ errs,
      (formsetErrors sampleStore ⟨1, 0, [⟨none, some 10, some "Banana"⟩]⟩)[0]? =
        some errs ∧
      errs ≠ [] ∧
      ∀ e ∈ rowErrors sampleStore ⟨none, some 10, some "Banana"⟩, e ∈ errs :=
  C2_invalid_row_persists_nothing sampleStore 1 1
    ⟨1, 0, [⟨none, some 10, some "Banana"⟩]⟩ 0 ⟨none, some 10, some "Banana"⟩
    (by rfl) (by rfl) (by decide) (by decide)

/-- Witness for C3: two well-formed rows for customer 1 persist exactly
two new Orders referencing customer 1 and redirect to their detail view. -/
theorem C3_wellformed_rows_create_n_orders_witness :
    ∃ newOrders,
      create_order true .POST
          ⟨2, 0, [⟨none, some 10, some "Pending"⟩, ⟨none, some 11, some "Done"⟩]⟩
          sampleStore 1 =
        .ok (.redirect (.customerDetail 1),
             { sampleStore with orders := sampleStore.orders ++ newOrders }) ∧
      newOrders.length = 2 ∧
      ∀ o ∈ newOrders, o.customer = 1 :=
  C3_wellformed_rows_create_n_orders sampleStore 1 1
    ⟨2, 0, [⟨none, some 10, some "Pending"⟩, ⟨none, some 11, some "Done"⟩]⟩
    (by rfl) (by rfl) (by rfl) (by decide)

/-- Witness for C6: a valid status update of order 100 leaves the other
two orders in place, byte for byte. -/
theorem C6_update_mutates_only_target_witness :
    ∃ s2, update_order true .POST ⟨some 1, some 11, some "Done"⟩
        sampleStore 100 = .ok (.redirect .dashboard, s2) ∧
      s2.customers = sampleStore.customers ∧
      s2.products = sampleStore.products ∧
      s2.orders.length = sampleStore.orders.length ∧
      ∀ i : Nat, ∀ o : Order, sampleStore.orders[i]? = some o →
        o.id ≠ 100 → s2.orders[i]? = some o :=
  C6_update_mutates_only_target sampleStore 100 ⟨100, 1, 10, "Pending"⟩
    ⟨some 1, some 11, some "Done"⟩ (by rfl) (by decide)

/-- Witness for C7: deleting order 101 — GET renders the confirmation,
POST removes exactly that row and its id no longer resolves. -/
theorem C7_delete_order_get_confirms_post_deletes_witness :
    delete_order true .GET sampleStore 101 =
      .ok (.render "app/delete.html" [], sampleStore) ∧
    ∃ s2, delete_order true .POST sampleStore 101 =
        .ok (.redirect .dashboard, s2) ∧
      s2.customers = sampleStore.customers ∧
      s2.products = sampleStore.products ∧
      (⟨101, 2, 11, "Done"⟩ : Order) ∉ s2.orders ∧
      (∀ o ∈ sampleStore.orders, o ≠ ⟨101, 2, 11, "Done"⟩ → o ∈ s2.orders) ∧
      (∀ o ∈ s2.orders, o ∈ sampleStore.orders) ∧
      getOrder s2 101 = .error .doesNotExist :=
  C7_delete_order_get_confirms_post_deletes sampleStore 101
    ⟨101, 2, 11, "Done"⟩ (by rfl)

/-- Witness for C8: for order 100, a valid body persists and redirects,
and an out-of-enumeration status re-renders with errors. -/
theorem C8_update_post_valid_or_invalid_witness :
    (orderFormIsValid sampleStore ⟨some 1, some 11, some "Banana"⟩ = true →
      update_order true .POST ⟨some 1, some 11, some "Banana"⟩
          sampleStore 100 =
        .ok (.redirect .dashboard,
             orderFormSaveInstance sampleStore 100
               ⟨some 1, some 11, some "Banana"⟩)) ∧
    (orderFormIsValid sampleStore ⟨some 1, some 11, some "Banana"⟩ = false →
      update_order true .POST ⟨some 1, some 11, some "Banana"⟩
          sampleStore 100 =
        .ok (.render "app/update_order_form.html"
              [orderFormErrors sampleStore ⟨some 1, some 11, some "Banana"⟩],
             sampleStore) ∧
      orderFormErrors sampleStore ⟨some 1, some 11, some "Banana"⟩ ≠ []) :=
  C8_update_post_valid_or_invalid sampleStore 100 ⟨100, 1, 10, "Pending"⟩
    ⟨some 1, some 11, some "Banana"⟩ (by rfl)

/-- Witness for the amended C10: the initial-form POST that rewrites
order 100 still leaves the store an in-place update of the old rows (ids
and owners intact, other customers' orders untouched) with nothing
appended. -/
theorem C10_create_order_inserts_or_updates_own_witness :
    ∃ updated newOrders,
      (Store.mk [1, 2] [10, 11]
        [⟨100, 1, 11, "Done"⟩, ⟨101, 2, 11, "Done"⟩,
         ⟨102, 1, 11, "Done"⟩]).orders = updated ++ newOrders ∧
      (Store.mk [1, 2] [10, 11]
        [⟨100, 1, 11, "Done"⟩, ⟨101, 2, 11, "Done"⟩,
         ⟨102, 1, 11, "Done"⟩]).customers = sampleStore.customers ∧
      (Store.mk [1, 2] [10, 11]
        [⟨100, 1, 11, "Done"⟩, ⟨101, 2, 11, "Done"⟩,
         ⟨102, 1, 11, "Done"⟩]).products = sampleStore.products ∧
      updated.length = sampleStore.orders.length ∧
      updated.map (fun o => (o.id, o.customer)) =
        sampleStore.orders.map (fun o => (o.id, o.customer)) ∧
      (∀ o ∈ sampleStore.orders, o.customer ≠ 1 → o ∈ updated) ∧
      ((1 : Nat) = 0 → updated = sampleStore.orders) :=
  C10_create_order_inserts_or_updates_own true .POST
    ⟨1, 1, [⟨some 100, some 11, some "Done"⟩]⟩ sampleStore 1
    (.redirect (.customerDetail 1))
    (Store.mk [1, 2] [10, 11]
      [⟨100, 1, 11, "Done"⟩, ⟨101, 2, 11, "Done"⟩, ⟨102, 1, 11, "Done"⟩])
    (by rfl)

end CustomersMGMT
